import Mathlib

/-!
Shallow embedding of the provider-routing and request-dispatch core of the
multi-ai-browser-extension repository, together with proofs of the spec
claims about it.  Definitions mirror the TypeScript source:
`src/types/ai.ts` (data model and `AIRouter`), `src/services/storage.ts`
(`StorageService` response cache), `src/background/index.ts` (`sendToAI`,
`generateCacheKey`, `trackUsage`), `src/services/anthropic.ts`
(`ClaudeAPI`), and `src/background/apiManager.ts` (`APIManager`).

Numbers that are JavaScript floating-point numbers in the source are
modelled as rationals; JavaScript `Map` objects are modelled as
insertion-ordered association lists; `undefined`-able fields are `Option`s;
code that can throw is modelled with `Except String`.
-/

/-! ### Data model (src/types/ai.ts) -/

/-- The four backend services: `type AIProvider = 'claude' | 'chatgpt' | 'gemini' | 'grok'`. -/
inductive AIProvider where
  | claude
  | chatgpt
  | gemini
  | grok
deriving DecidableEq, Repr

/-- The wire name of a provider, as used in the TypeScript string union. -/
def providerId : AIProvider → String
  | .claude => "claude"
  | .chatgpt => "chatgpt"
  | .gemini => "gemini"
  | .grok => "grok"

/-- `type TaskType` from src/types/ai.ts. -/
inductive TaskType where
  | creative_writing
  | analysis
  | reasoning
  | code_generation
  | debugging
  | technical_docs
  | research
  | real_time_info
  | translation
  | summarization
  | casual_chat
  | data_extraction
deriving DecidableEq, Repr

/-- Message roles: `'system' | 'user' | 'assistant'`. -/
inductive Role where
  | system
  | user
  | assistant
deriving DecidableEq, Repr

/-- Token pair attached to a message (`tokens?: \x7binput, output\x7d`). -/
structure TokensInOut where
  input : Nat
  output : Nat
deriving DecidableEq, Repr

/-- `interface AIMessage` from src/types/ai.ts. -/
structure AIMessage where
  role : Role
  content : String
  timestamp : Option Nat := none
  provider : Option AIProvider := none
  model : Option String := none
  tokens : Option TokensInOut := none
  cost : Option ℚ := none
deriving DecidableEq, Repr

/-- `interface PageContext` from src/types/ai.ts (the `metadata` record,
a `Record<string, any>`, is not consumed by the modelled core and is omitted). -/
structure PageContext where
  url : String
  title : String
  selection : Option String := none
  visibleText : Option String := none
  fullHtml : Option String := none
deriving DecidableEq, Repr

/-- `interface AIRequest`.  The TypeScript type declares `provider` as
required, but `sendToAI` guards on `!provider`, so callers pass `undefined`
to trigger routing; it is modelled as an `Option`. -/
structure AIRequest where
  provider : Option AIProvider := none
  model : String
  messages : List AIMessage
  temperature : Option ℚ := none
  maxTokens : Option Nat := none
  topP : Option ℚ := none
  stream : Option Bool := none
  systemPrompt : Option String := none
  context : Option PageContext := none
deriving DecidableEq, Repr

/-- `usage` block of `interface AIResponse`. -/
structure ResponseUsage where
  inputTokens : Nat
  outputTokens : Nat
  totalTokens : Nat
deriving DecidableEq, Repr

/-- `interface AIResponse`.  `responseTime` is not declared in the interface
but is spread onto the object by `APIManager.sendRequest`. -/
structure AIResponse where
  provider : AIProvider
  model : String
  content : String
  usage : Option ResponseUsage := none
  cost : Option ℚ := none
  error : Option String := none
  streaming : Option Bool := none
  responseTime : Option Nat := none
deriving DecidableEq, Repr

/-- `interface RoutingScore` factors block. -/
structure ScoreFactors where
  capabilityMatch : ℚ
  userPreference : ℚ
  costEfficiency : ℚ
  responseSpeed : ℚ
deriving DecidableEq, Repr

/-- `interface RoutingScore`. -/
structure RoutingScore where
  provider : AIProvider
  score : ℚ
  factors : ScoreFactors
deriving DecidableEq, Repr

/-! ### JavaScript-semantics helpers -/

/-- JavaScript `a || b` on strings: the empty string is falsy. -/
def jsOrStr (a b : String) : String := if a = "" then b else a

/-- JavaScript `a || b` where `a` is a possibly-`undefined` string. -/
def jsOrOptStr (a : Option String) (b : String) : String := jsOrStr (a.getD "") b

/-- JavaScript `a || b` on a possibly-`undefined` number: `undefined` and `0` are falsy. -/
def jsOrNat (a : Option Nat) (b : Nat) : Nat :=
  match a with
  | some n => if n = 0 then b else n
  | none => b

/-- JavaScript `a || b` on a rational-valued number: `0` is falsy. -/
def jsOrQ (a b : ℚ) : ℚ := if a = 0 then b else a

/-- JavaScript `x.cost || 0` style read of an optional number. -/
def jsNumOrZero (a : Option ℚ) : ℚ := a.getD 0

/-- `Map.get` on an insertion-ordered association list. -/
def mapGet {κ ε : Type} [DecidableEq κ] : List (κ × ε) → κ → Option ε
  | [], _ => none
  | (k₀, v₀) :: rest, k => if k₀ = k then some v₀ else mapGet rest k

/-- `Map.set`: replace in place when the key is present, else append. -/
def mapSet {κ ε : Type} [DecidableEq κ] (l : List (κ × ε)) (k : κ) (v : ε) :
    List (κ × ε) :=
  match l with
  | [] => [(k, v)]
  | (k₀, v₀) :: rest =>
    if k₀ = k then (k, v) :: rest else (k₀, v₀) :: mapSet rest k v

/-- `Map.delete` (keys are unique in a `Map`, so removing every match is
equivalent). -/
def mapDelete {κ ε : Type} [DecidableEq κ] : List (κ × ε) → κ → List (κ × ε)
  | [], _ => []
  | (k₀, v₀) :: rest, k =>
    if k₀ = k then mapDelete rest k else (k₀, v₀) :: mapDelete rest k

/-- Substring test: models a case-insensitive literal-alternation regex
tested against already-lower-cased content. -/
def strContains (s pat : String) : Bool := decide (pat.toList <:+: s.toList)

/-! ### AIRouter (src/background/aiRouter.ts, concatenated into src/types/ai.ts) -/

namespace AIRouter

/-- One entry of `performanceMetrics`. -/
structure ProviderMetrics where
  avgResponseTime : ℚ
  successRate : ℚ
deriving DecidableEq, Repr

/-- Router instance state: the `userPreferences` map (keyed by
`taskType + "-preference"`, so a function of the task type) and the
`performanceMetrics` map (populated for all four providers by
`initializeMetrics`, hence total). -/
structure RouterState where
  preferences : TaskType → Option AIProvider
  metrics : AIProvider → ProviderMetrics

/-- The metrics installed by `initializeMetrics`. -/
def initialMetrics : AIProvider → ProviderMetrics
  | .claude => ⟨2000, 98/100⟩
  | .chatgpt => ⟨1800, 97/100⟩
  | .gemini => ⟨1500, 96/100⟩
  | .grok => ⟨1000, 95/100⟩

/-- Router state right after construction, before any learned preference. -/
def initialState : RouterState :=
  { preferences := fun _ => none, metrics := initialMetrics }

/-- `interface AIRoutingRule`: the `pattern` field is a case-insensitive
alternation of literal words, modelled as the list of those words. -/
structure AIRoutingRule where
  id : String
  keywords : List String
  provider : AIProvider
  model : Option String := none
  priority : Nat
  taskTypes : List TaskType

/-- Does the rule pattern match the (lower-cased) content? -/
def patternMatches (keywords : List String) (content : String) : Bool :=
  keywords.any (fun k => strContains content k)

/-- The private `routingRules` array, in declaration order. -/
def routingRules : List AIRoutingRule :=
  [ { id := "claude-creative",
      keywords := ["write", "story", "creative", "poem", "narrative", "essay", "article"],
      provider := .claude, model := some "claude-3-opus-20240229", priority := 10,
      taskTypes := [.creative_writing] },
    { id := "claude-analysis",
      keywords := ["analyze", "analysis", "reasoning", "explain", "understand", "complex"],
      provider := .claude, priority := 10,
      taskTypes := [.analysis, .reasoning] },
    { id := "chatgpt-code",
      keywords := ["code", "program", "function", "debug", "implement", "javascript", "python", "typescript"],
      provider := .chatgpt, model := some "gpt-4-turbo-preview", priority := 10,
      taskTypes := [.code_generation, .debugging] },
    { id := "chatgpt-technical",
      keywords := ["technical", "documentation", "api", "specification"],
      provider := .chatgpt, priority := 9,
      taskTypes := [.technical_docs] },
    { id := "gemini-research",
      keywords := ["research", "search", "find", "latest", "news", "current", "google"],
      provider := .gemini, priority := 10,
      taskTypes := [.research, .real_time_info] },
    { id := "gemini-data",
      keywords := ["extract", "data", "table", "csv", "json", "parse"],
      provider := .gemini, priority := 9,
      taskTypes := [.data_extraction] },
    { id := "grok-casual",
      keywords := ["chat", "casual", "quick", "simple", "hey", "hi"],
      provider := .grok, priority := 8,
      taskTypes := [.casual_chat] },
    { id := "grok-social",
      keywords := ["tweet", "post", "social", "twitter", "x.com"],
      provider := .grok, priority := 10,
      taskTypes := [.casual_chat] } ]

/-- `getRequestContent`: last message content and context excerpt
(selection before visible text), concatenated and lower-cased. -/
def getRequestContent (request : AIRequest) : String :=
  let lastContent := ((request.messages.getLast?).map (·.content)).getD ""
  let context :=
    match request.context with
    | none => ""
    | some c => jsOrStr (c.selection.getD "") (c.visibleText.getD "")
  (lastContent ++ " " ++ context).toLower

/-- The fallback `taskKeywords` table, in object-literal order. -/
def taskKeywords : List (TaskType × List String) :=
  [ (.creative_writing, ["write", "story", "creative", "poem", "narrative"]),
    (.analysis, ["analyze", "analysis", "explain", "understand"]),
    (.reasoning, ["reason", "logic", "deduce", "conclude"]),
    (.code_generation, ["code", "program", "function", "implement"]),
    (.debugging, ["debug", "fix", "error", "bug"]),
    (.technical_docs, ["document", "api", "technical", "specification"]),
    (.research, ["research", "find", "search", "information"]),
    (.real_time_info, ["latest", "current", "today", "news"]),
    (.translation, ["translate", "translation", "language"]),
    (.summarization, ["summarize", "summary", "brief", "tldr"]),
    (.casual_chat, ["chat", "talk", "hey", "hi", "hello"]),
    (.data_extraction, ["extract", "parse", "data", "table"]) ]

/-- `detectTaskType`: first matching routing rule wins (its first task
type), then first matching fallback keyword row, else `casual_chat`. -/
def detectTaskType (request : AIRequest) : TaskType :=
  let content := getRequestContent request
  match routingRules.find? (fun r => patternMatches r.keywords content) with
  | some rule => (rule.taskTypes.head?).getD .casual_chat
  | none =>
    match taskKeywords.find? (fun kw => patternMatches kw.2 content) with
    | some kw => kw.1
    | none => .casual_chat

/-- The static `capabilities` table of `calculateCapabilityMatch`. -/
def capabilities : AIProvider → TaskType → ℚ
  | .claude, .creative_writing => 1
  | .claude, .analysis => 1
  | .claude, .reasoning => 1
  | .claude, .code_generation => 8/10
  | .claude, .debugging => 7/10
  | .claude, .technical_docs => 8/10
  | .claude, .research => 6/10
  | .claude, .real_time_info => 3/10
  | .claude, .translation => 8/10
  | .claude, .summarization => 9/10
  | .claude, .casual_chat => 8/10
  | .claude, .data_extraction => 7/10
  | .chatgpt, .creative_writing => 8/10
  | .chatgpt, .analysis => 8/10
  | .chatgpt, .reasoning => 8/10
  | .chatgpt, .code_generation => 1
  | .chatgpt, .debugging => 1
  | .chatgpt, .technical_docs => 1
  | .chatgpt, .research => 7/10
  | .chatgpt, .real_time_info => 4/10
  | .chatgpt, .translation => 9/10
  | .chatgpt, .summarization => 8/10
  | .chatgpt, .casual_chat => 8/10
  | .chatgpt, .data_extraction => 8/10
  | .gemini, .creative_writing => 7/10
  | .gemini, .analysis => 8/10
  | .gemini, .reasoning => 8/10
  | .gemini, .code_generation => 8/10
  | .gemini, .debugging => 7/10
  | .gemini, .technical_docs => 8/10
  | .gemini, .research => 1
  | .gemini, .real_time_info => 1
  | .gemini, .translation => 9/10
  | .gemini, .summarization => 8/10
  | .gemini, .casual_chat => 7/10
  | .gemini, .data_extraction => 9/10
  | .grok, .creative_writing => 6/10
  | .grok, .analysis => 6/10
  | .grok, .reasoning => 6/10
  | .grok, .code_generation => 6/10
  | .grok, .debugging => 5/10
  | .grok, .technical_docs => 6/10
  | .grok, .research => 7/10
  | .grok, .real_time_info => 9/10
  | .grok, .translation => 6/10
  | .grok, .summarization => 7/10
  | .grok, .casual_chat => 1
  | .grok, .data_extraction => 6/10

/-- `calculateCapabilityMatch`: a rule of this provider matching the
content is a perfect 1.0, else the static table (`|| 0.5` on a falsy
table read, per JavaScript semantics). -/
def calculateCapabilityMatch (provider : AIProvider) (taskType : TaskType)
    (request : AIRequest) : ℚ :=
  let content := getRequestContent request
  if routingRules.any (fun r =>
      decide (r.provider = provider) && patternMatches r.keywords content) then
    1
  else
    jsOrQ (capabilities provider taskType) (1/2)

/-- `calculateUserPreference`. -/
def calculateUserPreference (st : RouterState) (provider : AIProvider)
    (taskType : TaskType) : ℚ :=
  match st.preferences taskType with
  | some preferred => if preferred = provider then 1 else 3/10
  | none => jsOrQ (st.metrics provider).successRate (1/2)

/-- Estimated cost table of `calculateCostEfficiency` (cents per 1k tokens). -/
def routingCosts : AIProvider → ℚ × ℚ
  | .claude => (8/10, 24/10)
  | .chatgpt => (1, 3)
  | .gemini => (5/10, 15/10)
  | .grok => (3/10, 9/10)

/-- `estimateTokens`: about 4 characters per token on the request content,
output tokens from `request.maxTokens || 1000`. -/
def estimateTokens (request : AIRequest) : Nat × Nat :=
  let content := getRequestContent request
  ((content.length + 3) / 4, jsOrNat request.maxTokens 1000)

/-- `calculateCostEfficiency`: `max(0, 1 - estimatedCost / 5)`. -/
def calculateCostEfficiency (provider : AIProvider) (request : AIRequest) : ℚ :=
  let estimated := estimateTokens request
  let cost := routingCosts provider
  let estimatedCost := ((estimated.1 : ℚ) * cost.1 + (estimated.2 : ℚ) * cost.2) / 1000
  max 0 (1 - estimatedCost / 5)

/-- `calculateResponseSpeed`: `max(0, 1 - avgResponseTime / 5000)`. -/
def calculateResponseSpeed (st : RouterState) (provider : AIProvider) : ℚ :=
  max 0 (1 - (st.metrics provider).avgResponseTime / 5000)

/-- `calculateProviderScore`: the four factors and their fixed weighted sum. -/
def calculateProviderScore (st : RouterState) (provider : AIProvider)
    (request : AIRequest) (taskType : TaskType) : RoutingScore :=
  let factors : ScoreFactors :=
    { capabilityMatch := calculateCapabilityMatch provider taskType request
      userPreference := calculateUserPreference st provider taskType
      costEfficiency := calculateCostEfficiency provider request
      responseSpeed := calculateResponseSpeed st provider }
  let score :=
    factors.capabilityMatch * (4/10) +
    factors.userPreference * (3/10) +
    factors.costEfficiency * (2/10) +
    factors.responseSpeed * (1/10)
  { provider := provider, score := score, factors := factors }

/-- `calculateScores`: iterate the four providers in declaration order,
skip the disabled ones, score the rest. -/
def calculateScores (st : RouterState) (enabled : AIProvider → Bool)
    (request : AIRequest) : List RoutingScore :=
  let taskType := detectTaskType request
  ([AIProvider.claude, .chatgpt, .gemini, .grok].filter enabled).map
    (fun p => calculateProviderScore st p request taskType)

/-- Stable insert for the descending sort produced by
`scores.sort((a, b) => b.score - a.score)`. -/
def insertScoreDesc (s : RoutingScore) : List RoutingScore → List RoutingScore
  | [] => [s]
  | t :: ts => if t.score ≤ s.score then s :: t :: ts else t :: insertScoreDesc s ts

/-- Stable descending-by-score sort (JavaScript `Array.prototype.sort` is stable). -/
def sortScoresDesc : List RoutingScore → List RoutingScore
  | [] => []
  | s :: ss => insertScoreDesc s (sortScoresDesc ss)

/-- The message of the TypeError thrown by `sorted[0].provider` when the
score list is empty. -/
def emptyScoresError : String :=
  "TypeError: cannot read properties of undefined"

/-- `route`: sort the scores and take the best provider.  With an empty
score list the source throws (reading `.provider` of `undefined`),
modelled as an `Except.error`. -/
def route (st : RouterState) (enabled : AIProvider → Bool)
    (request : AIRequest) : Except String AIProvider :=
  match sortScoresDesc (calculateScores st enabled request) with
  | [] => .error emptyScoresError
  | s :: _ => .ok s.provider

end AIRouter

/-! ### StorageService response cache (src/services/storage.ts) -/

namespace StorageService

/-- `interface CachedResponse` (src/types/storage.ts). -/
structure CachedResponse where
  key : String
  response : AIResponse
  timestamp : Nat
  hits : Nat
  provider : AIProvider
deriving DecidableEq, Repr

/-- `interface ResponseCache`: the entries `Map` in insertion order, the
maximum entry count and the time-to-live in milliseconds. -/
structure ResponseCache where
  entries : List (String × CachedResponse)
  maxSize : Nat
  ttl : Nat
deriving DecidableEq, Repr

/-- The default cache object created by `setCachedResponse` when storage
holds no cache yet. -/
def defaultCache : ResponseCache :=
  { entries := [], maxSize := 100, ttl := 3600000 }

/-- `removeCachedResponse`: delete the key, leave everything else. -/
def removeCachedResponse (key : String) (cache : Option ResponseCache) :
    Option ResponseCache :=
  match cache with
  | none => none
  | some c => some { c with entries := mapDelete c.entries key }

/-- `getCachedResponse` at clock value `now` (`Date.now()`): a missing or
expired entry is a miss (expiry also deletes the entry); a live entry has
its hit counter incremented (`entry.hits++`), is persisted, and is
returned.  Returns the result together with the updated stored cache. -/
def getCachedResponse (key : String) (cache : Option ResponseCache)
    (now : Nat) : Option CachedResponse × Option ResponseCache :=
  match cache with
  | none => (none, none)
  | some c =>
    match mapGet c.entries key with
    | none => (none, some c)
    | some entry =>
      if now - entry.timestamp > c.ttl then
        (none, removeCachedResponse key (some c))
      else
        let bumped := { entry with hits := entry.hits + 1 }
        (some bumped, some { c with entries := mapSet c.entries key bumped })

/-- Stable insert of the ascending sort produced by
`sort((a, b) => a[1].timestamp - b[1].timestamp)`. -/
def insertByTimestamp (x : String × CachedResponse) :
    List (String × CachedResponse) → List (String × CachedResponse)
  | [] => [x]
  | y :: ys =>
    if x.2.timestamp ≤ y.2.timestamp then x :: y :: ys
    else y :: insertByTimestamp x ys

/-- Stable ascending-by-timestamp sort of the entry list. -/
def sortByTimestamp : List (String × CachedResponse) →
    List (String × CachedResponse)
  | [] => []
  | x :: xs => insertByTimestamp x (sortByTimestamp xs)

/-- `setCachedResponse` at clock value `now`: insert a fresh entry with
zero hits, then, when the entry count exceeds `maxSize`, delete the
oldest-by-timestamp entries until back at `maxSize`. -/
def setCachedResponse (key : String) (response : AIResponse)
    (provider : AIProvider) (now : Nat) (cache : Option ResponseCache) :
    ResponseCache :=
  let c := cache.getD defaultCache
  let entry : CachedResponse :=
    { key := key, response := response, timestamp := now, hits := 0,
      provider := provider }
  let entries1 := mapSet c.entries key entry
  if entries1.length > c.maxSize then
    let sorted := sortByTimestamp entries1
    let toRemove := sorted.take (entries1.length - c.maxSize)
    let entries2 := toRemove.foldl (fun acc p => mapDelete acc p.1) entries1
    { c with entries := entries2 }
  else
    { c with entries := entries1 }

end StorageService

/-! ### JSON serialization and btoa (for `generateCacheKey`) -/

/-- JSON string escaping of one character (control characters other than
the common ones are passed through; the modelled requests avoid them). -/
def escapeJsonChar (c : Char) : String :=
  if c = '"' then "\\\""
  else if c = '\\' then "\\\\"
  else if c = '\n' then "\\n"
  else if c = '\r' then "\\r"
  else if c = '\t' then "\\t"
  else String.mk [c]

/-- A JSON string literal. -/
def jsonString (s : String) : String :=
  "\"" ++ String.join (s.toList.map escapeJsonChar) ++ "\""

/-- Decimal digits of a rational in `[0, 1)`, up to the given fuel.
Models the shortest-round-trip printing of a JavaScript float for the
terminating decimal fractions the extension actually uses. -/
def fracDigits : Nat → ℚ → String
  | 0, _ => ""
  | fuel + 1, q =>
    if q = 0 then ""
    else
      let q10 := q * 10
      let d := q10.floor
      toString d ++ fracDigits fuel (q10 - (d : ℚ))

/-- JSON rendering of a number (`JSON.stringify` on a float). -/
def decimalString (q : ℚ) : String :=
  let sign := if q < 0 then "-" else ""
  let a := |q|
  let ipart := a.floor
  let fpart := a - (ipart : ℚ)
  if fpart = 0 then sign ++ toString ipart
  else sign ++ toString ipart ++ "." ++ fracDigits 30 fpart

/-- Join object fields with commas. -/
def joinComma : List String → String
  | [] => ""
  | [a] => a
  | a :: b :: rest => a ++ "," ++ joinComma (b :: rest)

/-- JSON rendering of one `AIMessage`, fields in interface order,
`undefined` fields omitted as `JSON.stringify` does. -/
def jsonMessage (m : AIMessage) : String :=
  let roleStr :=
    match m.role with
    | .system => "system"
    | .user => "user"
    | .assistant => "assistant"
  let fields :=
    ["\"role\":" ++ jsonString roleStr, "\"content\":" ++ jsonString m.content]
    ++ (match m.timestamp with
        | some t => ["\"timestamp\":" ++ toString t]
        | none => [])
    ++ (match m.provider with
        | some p => ["\"provider\":" ++ jsonString (providerId p)]
        | none => [])
    ++ (match m.model with
        | some md => ["\"model\":" ++ jsonString md]
        | none => [])
    ++ (match m.tokens with
        | some tk =>
          ["\"tokens\":\x7b\"input\":" ++ toString tk.input ++
            ",\"output\":" ++ toString tk.output ++ "\x7d"]
        | none => [])
    ++ (match m.cost with
        | some c => ["\"cost\":" ++ decimalString c]
        | none => [])
  "\x7b" ++ joinComma fields ++ "\x7d"

/-- JSON rendering of the messages array. -/
def jsonMessages (ms : List AIMessage) : String :=
  "[" ++ joinComma (ms.map jsonMessage) ++ "]"

/-- The `JSON.stringify` payload of `generateCacheKey`: the object literal
`\x7bprovider, model, messages, temperature, maxTokens\x7d` with `undefined`
fields omitted. -/
def cacheKeyJson (request : AIRequest) : String :=
  let fields :=
    (match request.provider with
     | some p => ["\"provider\":" ++ jsonString (providerId p)]
     | none => [])
    ++ ["\"model\":" ++ jsonString request.model]
    ++ ["\"messages\":" ++ jsonMessages request.messages]
    ++ (match request.temperature with
        | some t => ["\"temperature\":" ++ decimalString t]
        | none => [])
    ++ (match request.maxTokens with
        | some n => ["\"maxTokens\":" ++ toString n]
        | none => [])
  "\x7b" ++ joinComma fields ++ "\x7d"

/-- The base64 alphabet. -/
def sextetChars : List Char :=
  "ABCDEFGHIJKLMNOPQRSTUVWXYZabcdefghijklmnopqrstuvwxyz0123456789+/".toList

/-- The base64 digit for a sextet value. -/
def sextetChar (n : Nat) : Char := sextetChars.getD n 'A'

/-- The sextet value of a base64 digit. -/
def sextetVal (c : Char) : Nat := sextetChars.indexOf c

/-- Base64 encoding of a byte list, with `=` padding, as `btoa` produces. -/
def b64encode : List Nat → List Char
  | [] => []
  | [a] => [sextetChar (a / 4), sextetChar (a % 4 * 16), '=', '=']
  | [a, b] =>
    [sextetChar (a / 4), sextetChar (a % 4 * 16 + b / 16),
     sextetChar (b % 16 * 4), '=']
  | a :: b :: c :: rest =>
    sextetChar (a / 4) :: sextetChar (a % 4 * 16 + b / 16) ::
    sextetChar (b % 16 * 4 + c / 64) :: sextetChar (c % 64) :: b64encode rest

/-- `btoa` on a Latin-1 string. -/
def btoa (s : String) : String :=
  String.mk (b64encode (s.toList.map Char.toNat))

/-- Base64 decoding (used only to prove that `btoa` is injective on
Latin-1 payloads). -/
def b64decode : List Char → List Nat
  | x :: y :: z :: w :: rest =>
    if z = '=' then [sextetVal x * 4 + sextetVal y / 16]
    else if w = '=' then
      [sextetVal x * 4 + sextetVal y / 16, sextetVal y % 16 * 16 + sextetVal z / 4]
    else
      (sextetVal x * 4 + sextetVal y / 16) ::
      (sextetVal y % 16 * 16 + sextetVal z / 4) ::
      (sextetVal z % 4 * 64 + sextetVal w) :: b64decode rest
  | _ => []

/-! ### Background service worker (src/background/index.ts) -/

namespace Background

/-- Per-provider block of the settings object (the fields the modelled
core reads). -/
structure ProviderSettings where
  enabled : Bool
  model : String
  temperature : ℚ
  maxTokens : Nat
deriving DecidableEq, Repr

/-- `settings.general` fields consumed by `sendToAI`. -/
structure GeneralSettings where
  defaultProvider : AIProvider
  autoRouting : Bool
deriving DecidableEq, Repr

/-- `settings.advanced` fields consumed by `sendToAI`. -/
structure AdvancedSettings where
  cacheResponses : Bool
deriving DecidableEq, Repr

/-- The extension settings consumed by the dispatch path. -/
structure ExtensionSettings where
  general : GeneralSettings
  providers : AIProvider → ProviderSettings
  advanced : AdvancedSettings

/-- `generateCacheKey`: `btoa(JSON.stringify(\x7bprovider, model, messages,
temperature, maxTokens\x7d))` — note it reads `request.provider`, the field
as supplied by the caller, never the provider the dispatch resolved. -/
def generateCacheKey (request : AIRequest) : String :=
  btoa (cacheKeyJson request)

/-- Provider resolution at the top of `sendToAI` (lines 157-165): an
explicitly supplied provider is used unconditionally; otherwise the router
runs when auto-routing is on, else the configured default is used.  The
`Except` propagates the TypeError `AIRouter.route` throws when every
provider is disabled. -/
def resolveProvider (request : AIRequest) (settings : ExtensionSettings)
    (st : AIRouter.RouterState) : Except String AIProvider :=
  match request.provider with
  | some p => .ok p
  | none =>
    if settings.general.autoRouting then
      AIRouter.route st (fun p => (settings.providers p).enabled) request
    else
      .ok settings.general.defaultProvider

end Background

namespace Background

/-! #### Usage accounting (`trackUsage`) -/

/-- Per-provider block of `usage.byProvider`. -/
structure ProviderUsage where
  requests : Nat
  tokens : TokensInOut
  cost : ℚ
  errors : Nat
  averageResponseTime : ℚ
deriving DecidableEq, Repr

/-- One bucket of `usage.dailyUsage` (`date` is a `YYYY-MM-DD` string). -/
structure DailyUsage where
  date : String
  requests : Nat
  tokens : Nat
  cost : ℚ
  providers : List (AIProvider × Nat)
deriving DecidableEq, Repr

/-- One entry of `usage.alerts`. -/
structure UsageAlert where
  id : String
  type : String
  message : String
  timestamp : Nat
  dismissed : Bool
deriving DecidableEq, Repr

/-- The `usage` object stored under the `usage` key. -/
structure UsageStats where
  totalRequests : Nat
  totalTokens : TokensInOut
  totalCost : ℚ
  byProvider : List (AIProvider × ProviderUsage)
  dailyUsage : List DailyUsage
  alerts : List UsageAlert
  monthlyBudget : Option ℚ := none
deriving DecidableEq, Repr

/-- The default `usage` object `trackUsage` builds when storage is empty. -/
def emptyUsage : UsageStats :=
  { totalRequests := 0, totalTokens := ⟨0, 0⟩, totalCost := 0,
    byProvider := [], dailyUsage := [], alerts := [], monthlyBudget := none }

/-- The fresh per-provider block created on first use of a provider. -/
def freshProviderUsage : ProviderUsage :=
  { requests := 0, tokens := ⟨0, 0⟩, cost := 0, errors := 0,
    averageResponseTime := 0 }

/-- JavaScript truthiness of `response.error` (absent or empty is falsy). -/
def hasError (response : AIResponse) : Bool :=
  match response.error with
  | some e => !(e = "")
  | none => false

/-- Update of the daily-usage list before the retention cut: bump the
first bucket whose `date` is today (mutation in place preserves its
position), or push a fresh bucket for today. -/
def updateDailyUsage (provider : AIProvider) (response : AIResponse)
    (today : String) : List DailyUsage → List DailyUsage
  | [] =>
    [{ date := today, requests := 1,
       tokens := (response.usage.map (·.totalTokens)).getD 0,
       cost := jsNumOrZero response.cost,
       providers := [(provider, 1)] }]
  | d :: ds =>
    if d.date = today then
      { d with
        requests := d.requests + 1,
        cost := d.cost + jsNumOrZero response.cost,
        providers :=
          mapSet d.providers provider ((mapGet d.providers provider).getD 0 + 1) } :: ds
    else
      d :: updateDailyUsage provider response today ds

/-- `date.getMonth() === now.getMonth() && date.getFullYear() ===
now.getFullYear()` on `YYYY-MM-DD` strings: the `YYYY-MM` prefixes agree. -/
def sameMonth (d today : String) : Bool := decide (d.take 7 = today.take 7)

/-- `trackUsage(provider, response)` at UTC calendar date `today`
(`new Date().toISOString().split('T')[0]`) and clock `nowMs`
(`Date.now()`): bump the running totals, the per-provider stats and the
daily bucket, keep only the last 30 daily buckets (`slice(-30)`), then
append a budget alert when over 80% of a configured monthly budget. -/
def trackUsage (provider : AIProvider) (response : AIResponse)
    (today : String) (nowMs : Nat) (stored : Option UsageStats) : UsageStats :=
  let usage := stored.getD emptyUsage
  let totalTokens :=
    match response.usage with
    | some u =>
      TokensInOut.mk (usage.totalTokens.input + u.inputTokens)
        (usage.totalTokens.output + u.outputTokens)
    | none => usage.totalTokens
  let pu := (mapGet usage.byProvider provider).getD freshProviderUsage
  let puTokens :=
    match response.usage with
    | some u =>
      TokensInOut.mk (pu.tokens.input + u.inputTokens)
        (pu.tokens.output + u.outputTokens)
    | none => pu.tokens
  let pu1 : ProviderUsage :=
    { pu with
      requests := pu.requests + 1,
      tokens := puTokens,
      cost := pu.cost + jsNumOrZero response.cost,
      errors := pu.errors + (if hasError response then 1 else 0) }
  let daily1 := updateDailyUsage provider response today usage.dailyUsage
  let daily2 := daily1.drop (daily1.length - 30)
  let alerts1 :=
    match usage.monthlyBudget with
    | some budget =>
      if budget = 0 then usage.alerts
      else
        let monthlyTotal :=
          ((daily2.filter (fun d => sameMonth d.date today)).map (·.cost)).sum
        if budget * (8/10) < monthlyTotal then
          usage.alerts ++
            [{ id := "budget-" ++ toString nowMs, type := "budget",
               message := "You have used " ++
                 toString (round (monthlyTotal / budget * 100) : ℤ) ++
                 "% of your monthly budget",
               timestamp := nowMs, dismissed := false }]
        else usage.alerts
    | none => usage.alerts
  { totalRequests := usage.totalRequests + 1,
    totalTokens := totalTokens,
    totalCost := usage.totalCost + jsNumOrZero response.cost,
    byProvider := mapSet usage.byProvider provider pu1,
    dailyUsage := daily2,
    alerts := alerts1,
    monthlyBudget := usage.monthlyBudget }

/-! #### The dispatch entry point (`sendToAI`) -/

/-- The environment a dispatch runs in: the settings and router state, the
credential store (`getAPIKey`), and the outcome `APIManager.sendRequest`
would produce for each provider (`.error` models a thrown exception,
`.ok` a returned response, which may itself carry an `error` field). -/
structure DispatchEnv where
  settings : ExtensionSettings
  router : AIRouter.RouterState
  apiKey : AIProvider → Option String
  adapter : AIProvider → Except String AIResponse

/-- The mutable storage a dispatch touches. -/
structure DispatchState where
  cache : Option StorageService.ResponseCache
  usage : Option UsageStats

/-- The body of `sendToAI`-s `try` block, threading storage state; an
`Except.error` is an exception about to hit the `catch`. -/
def sendToAITry (env : DispatchEnv) (request : AIRequest)
    (st : DispatchState) (now : Nat) (today : String) :
    Except String AIResponse × DispatchState :=
  match resolveProvider request env.settings env.router with
  | .error msg => (.error msg, st)
  | .ok provider =>
    match env.apiKey provider with
    | none => (.error ("API key not found for " ++ providerId provider), st)
    | some _apiKey =>
      let lookup :=
        if env.settings.advanced.cacheResponses then
          let cacheKey := generateCacheKey request
          let r := StorageService.getCachedResponse cacheKey st.cache now
          (r.1, { st with cache := r.2 })
        else (none, st)
      match lookup with
      | (some cached, st1) => (.ok cached.response, st1)
      | (none, st1) =>
        match env.adapter provider with
        | .error msg => (.error msg, st1)
        | .ok response =>
          let st2 :=
            if env.settings.advanced.cacheResponses && !(hasError response) then
              { st1 with
                cache := some (StorageService.setCachedResponse
                  (generateCacheKey request) response provider now st1.cache) }
            else st1
          let st3 :=
            { st2 with
              usage := some (trackUsage provider response today now st2.usage) }
          (.ok response, st3)

/-- The response built by `sendToAI`-s `catch` block. -/
def catchResponse (request : AIRequest) (msg : String) : AIResponse :=
  { provider := request.provider.getD .claude,
    model := jsOrStr request.model "",
    content := "",
    error := some msg }

/-- `sendToAI`: the `try` body with every thrown exception converted into
an error-carrying `AIResponse`. -/
def sendToAI (env : DispatchEnv) (request : AIRequest) (st : DispatchState)
    (now : Nat) (today : String) : AIResponse × DispatchState :=
  match sendToAITry env request st now today with
  | (.ok response, st1) => (response, st1)
  | (.error msg, st1) => (catchResponse request msg, st1)

end Background

/-! ### ClaudeAPI provider adapter (src/services/anthropic.ts) -/

namespace ClaudeAPI

/-- The `usage` block of a Claude API success payload. -/
structure ClaudeUsage where
  input_tokens : Nat
  output_tokens : Nat
deriving DecidableEq, Repr

/-- A Claude API success payload: the text blocks of `content`, the
optional `model` echo and the optional `usage` block. -/
structure ClaudeData where
  content : List String
  model : Option String := none
  usage : Option ClaudeUsage := none
deriving DecidableEq, Repr

/-- An axios failure: either an HTTP response with a status (carrying
`data?.error?.message` when the body has one) or an error with no
response (network failure, cancellation, ...). -/
inductive AxiosFailure where
  | httpError (status : Nat) (errMessage : Option String)
  | plainError (message : String)
deriving DecidableEq, Repr

/-- The per-model pricing table of `calculateCost` (dollars per 1k tokens). -/
def claudeCosts : List (String × (ℚ × ℚ)) :=
  [ ("claude-3-opus-20240229", (15/1000, 75/1000)),
    ("claude-3-sonnet-20240229", (3/1000, 15/1000)),
    ("claude-3-haiku-20240307", (25/100000, 125/100000)),
    ("claude-2.1", (8/1000, 24/1000)),
    ("claude-2.0", (8/1000, 24/1000)),
    ("claude-instant-1.2", (8/10000, 24/10000)) ]

/-- `calculateCost`: look the model up, fall back to the sonnet price. -/
def calculateCost (model : String) (inputTokens outputTokens : Nat) : ℚ :=
  let modelCost := (mapGet claudeCosts model).getD (3/1000, 15/1000)
  ((inputTokens : ℚ) * modelCost.1 + (outputTokens : ℚ) * modelCost.2) / 1000

/-- `transformResponse`: first content block text (or empty), model from
the payload, the request, or the default, usage and cost when present. -/
def transformResponse (response : ClaudeData) (request : AIRequest) :
    AIResponse :=
  let content := (response.content.head?).getD ""
  let model :=
    jsOrOptStr response.model (jsOrStr request.model "claude-3-sonnet-20240229")
  { provider := .claude,
    model := model,
    content := content,
    usage :=
      match response.usage with
      | some u =>
        some ⟨u.input_tokens, u.output_tokens, u.input_tokens + u.output_tokens⟩
      | none => none,
    cost :=
      match response.usage with
      | some u => some (calculateCost model u.input_tokens u.output_tokens)
      | none => none }

/-- `handleError`: classify the transport failure into an error message
and return a Response whose `content` is empty and whose `error` is set;
nothing is thrown. -/
def handleError (e : AxiosFailure) (request : AIRequest) : AIResponse :=
  let errorMessage :=
    match e with
    | .httpError status errMessage =>
      if status = 401 then "Invalid API key"
      else if status = 429 then "Rate limit exceeded"
      else if status = 500 || status = 502 || status = 503 then
        "Claude API is temporarily unavailable"
      else
        jsOrOptStr errMessage ("HTTP " ++ toString status ++ " error")
    | .plainError message => message
  { provider := .claude,
    model := jsOrStr request.model "claude-3-sonnet-20240229",
    content := "",
    error := some errorMessage }

/-- `sendRequest`: `transport` is the outcome of the awaited
`client.post`; a failure goes through `handleError`, so the function
always returns normally. -/
def sendRequest (request : AIRequest)
    (transport : Except AxiosFailure ClaudeData) : AIResponse :=
  match transport with
  | .ok data => transformResponse data request
  | .error e => handleError e request

end ClaudeAPI

/-! ### APIManager (src/background/apiManager.ts) -/

namespace APIManager

/-- The outcome of the adapter call inside `APIManager.sendRequest`:
either a returned response, or a thrown error carrying its JavaScript
`name` and `message` (an abort surfaces as `name = "AbortError"`). -/
inductive AdapterOutcome where
  | success (response : AIResponse)
  | failure (name : String) (message : String)
deriving DecidableEq, Repr

/-- `APIManager.sendRequest` restricted to its effect on the
`activeRequests` registry (modelled as the list of registered ids in
insertion order).  `providerKnown` is whether `providers.get` found the
provider: when it did not, the function throws before registering
anything.  Otherwise the id is registered, the adapter outcome is
translated (`AbortError` becomes the cancellation message, other
exceptions are rethrown), and the `finally` block deregisters the id on
every path. -/
def sendRequest (providerKnown : Bool) (requestId : String)
    (responseTime : Nat) (outcome : AdapterOutcome) (active : List String) :
    Except String AIResponse × List String :=
  if !providerKnown then
    (.error "Unknown provider", active)
  else
    let active1 := if active.contains requestId then active else active ++ [requestId]
    let result : Except String AIResponse :=
      match outcome with
      | .success response => .ok { response with responseTime := some responseTime }
      | .failure name message =>
        if name = "AbortError" then .error "Request was cancelled"
        else .error message
    (result, active1.filter (fun s => s != requestId))

/-- `cancelRequest`: abort and deregister when the id is registered. -/
def cancelRequest (requestId : String) (active : List String) : List String :=
  if active.contains requestId then active.filter (fun s => s != requestId)
  else active

end APIManager

/-! ### Verification harness definitions -/

/-- One cache insertion, for iterating `setCachedResponse`. -/
structure CacheInsert where
  key : String
  response : AIResponse
  provider : AIProvider
  now : Nat
deriving DecidableEq, Repr

/-- The entry `setCachedResponse` creates for an insertion. -/
def insertEntry (i : CacheInsert) : String × StorageService.CachedResponse :=
  (i.key,
   { key := i.key, response := i.response, timestamp := i.now, hits := 0,
     provider := i.provider })

/-- Run a sequence of `setCachedResponse` calls against a stored cache. -/
def runInserts (l : List CacheInsert)
    (c : Option StorageService.ResponseCache) :
    Option StorageService.ResponseCache :=
  l.foldl
    (fun acc i =>
      some (StorageService.setCachedResponse i.key i.response i.provider i.now acc))
    c

/-- Day number of a proleptic-Gregorian calendar date (days since
1970-01-01), used to state how far apart two `YYYY-MM-DD` dates are. -/
def daysFromCivil (y : Int) (m d : Nat) : Int :=
  let y1 : Int := if m ≤ 2 then y - 1 else y
  let era : Int := (if 0 ≤ y1 then y1 else y1 - 399) / 400
  let yoe : Int := y1 - era * 400
  let mp : Int := ((m : Int) + 9) % 12
  let doy : Int := (153 * mp + 2) / 5 + (d : Int) - 1
  let doe : Int := yoe * 365 + yoe / 4 - yoe / 100 + doy
  era * 146097 + doe - 719468

/-- Characters of a list up to (excluding) the first double quote. -/
def takeUntilQuote : List Char → List Char
  | [] => []
  | c :: cs => if c = '"' then [] else c :: takeUntilQuote cs

/-- Extract the provider name from a cache-key JSON payload whose first
field is `provider`: skip the 13 characters of the field prefix and read
up to the closing quote. -/
def providerOfJson (s : String) : List Char :=
  takeUntilQuote (s.data.drop 13)

/-- A user message with the given text. -/
def msgUser (s : String) : AIMessage := { role := .user, content := s }

/-- A request that explicitly pins the provider to Grok while its content
matches Claude-affine routing rules. -/
def reqStory : AIRequest :=
  { provider := some .grok, model := "grok-beta",
    messages := [msgUser "write a story"] }

/-- Settings with every provider enabled, auto-routing and caching on. -/
def settingsAll : Background.ExtensionSettings :=
  { general := { defaultProvider := .claude, autoRouting := true },
    providers := fun _ =>
      { enabled := true, model := "m", temperature := 7/10, maxTokens := 4000 },
    advanced := { cacheResponses := true } }

/-- Settings in which exactly one provider is enabled. -/
def onlyEnabled (p : AIProvider) : Background.ExtensionSettings :=
  { general := { defaultProvider := .claude, autoRouting := true },
    providers := fun q =>
      { enabled := decide (q = p), model := "m", temperature := 7/10,
        maxTokens := 4000 },
    advanced := { cacheResponses := true } }

/-- Empty dispatch storage. -/
def st0 : Background.DispatchState := { cache := none, usage := none }

/-- An environment whose credential store is empty. -/
def envNoKey : Background.DispatchEnv :=
  { settings := settingsAll, router := AIRouter.initialState,
    apiKey := fun _ => none, adapter := fun _ => Except.error "network down" }

/-- A provider-free request whose content matches the Gemini research rule. -/
def reqAuto : AIRequest :=
  { provider := none, model := "m", messages := [msgUser "find the latest news"] }

/-- The response the Claude adapter returns in the sharing scenario. -/
def respFromClaude : AIResponse :=
  { provider := .claude, model := "m", content := "cached claude answer" }

/-- The response the Gemini adapter would return in the sharing scenario. -/
def respFromGemini : AIResponse :=
  { provider := .gemini, model := "m", content := "fresh gemini answer" }

/-- Environment that routes everything to Claude and answers from Claude. -/
def envClaude : Background.DispatchEnv :=
  { settings := onlyEnabled .claude, router := AIRouter.initialState,
    apiKey := fun _ => some "k", adapter := fun _ => Except.ok respFromClaude }

/-- Environment that routes everything to Gemini and answers from Gemini. -/
def envGemini : Background.DispatchEnv :=
  { settings := onlyEnabled .gemini, router := AIRouter.initialState,
    apiKey := fun _ => some "k", adapter := fun _ => Except.ok respFromGemini }

/-- A stored usage object holding a single six-year-old daily bucket. -/
def usageOld : Background.UsageStats :=
  { Background.emptyUsage with
    dailyUsage := [{ date := "2020-01-01", requests := 1, tokens := 0,
                     cost := 0, providers := [] }] }

/-- A plain successful response. -/
def respPlain : AIResponse :=
  { provider := .claude, model := "m", content := "ok" }

/-! ### Association-list lemmas -/

theorem mapGet_mapSet_self {κ ε : Type} [DecidableEq κ] (l : List (κ × ε))
    (k : κ) (v : ε) : mapGet (mapSet l k v) k = some v := by
  induction l with
  | nil => simp [mapSet, mapGet]
  | cons hd tl ih =>
    obtain ⟨k0, v0⟩ := hd
    by_cases hk : k0 = k
    · simp [mapSet, hk, mapGet]
    · simpa [mapSet, hk, mapGet] using ih

theorem mapSet_of_not_mem {κ ε : Type} [DecidableEq κ] (l : List (κ × ε))
    (k : κ) (v : ε) (h : k ∉ l.map Prod.fst) : mapSet l k v = l ++ [(k, v)] := by
  induction l with
  | nil => rfl
  | cons hd tl ih =>
    obtain ⟨k0, v0⟩ := hd
    simp only [List.map_cons, List.mem_cons, not_or] at h
    have hne : ¬ (k0 = k) := fun he => h.1 he.symm
    simp [mapSet, hne, ih h.2]

theorem mapGet_append_right {κ ε : Type} [DecidableEq κ] (l₁ l₂ : List (κ × ε))
    (k : κ) (h : k ∉ l₁.map Prod.fst) : mapGet (l₁ ++ l₂) k = mapGet l₂ k := by
  induction l₁ with
  | nil => rfl
  | cons hd tl ih =>
    obtain ⟨k0, v0⟩ := hd
    simp only [List.map_cons, List.mem_cons, not_or] at h
    have hne : ¬ (k0 = k) := fun he => h.1 he.symm
    simpa [mapGet, hne] using ih h.2

theorem mapGet_mapDelete_ne {κ ε : Type} [DecidableEq κ] (l : List (κ × ε))
    (k1 k2 : κ) (h : k1 ≠ k2) : mapGet (mapDelete l k1) k2 = mapGet l k2 := by
  induction l with
  | nil => rfl
  | cons hd tl ih =>
    obtain ⟨k0, v0⟩ := hd
    by_cases hk : k0 = k1
    · subst hk
      simpa [mapDelete, mapGet, h] using ih
    · by_cases hk2 : k0 = k2
      · subst hk2
        simp [mapDelete, hk, mapGet]
      · simpa [mapDelete, hk, mapGet, hk2] using ih

theorem mapDelete_of_not_mem {κ ε : Type} [DecidableEq κ] (l : List (κ × ε))
    (k : κ) (h : k ∉ l.map Prod.fst) : mapDelete l k = l := by
  induction l with
  | nil => rfl
  | cons hd tl ih =>
    obtain ⟨k0, v0⟩ := hd
    simp only [List.map_cons, List.mem_cons, not_or] at h
    have hne : ¬ (k0 = k) := fun he => h.1 he.symm
    simp [mapDelete, hne, ih h.2]

/-! ### Timestamp-sort lemmas -/

namespace StorageService

theorem insertByTimestamp_append_last (z x : String × CachedResponse)
    (s : List (String × CachedResponse)) (h : z.2.timestamp ≤ x.2.timestamp) :
    insertByTimestamp z (s ++ [x]) = insertByTimestamp z s ++ [x] := by
  induction s with
  | nil => simp [insertByTimestamp, h]
  | cons y ys ih =>
    by_cases hy : z.2.timestamp ≤ y.2.timestamp
    · simp [insertByTimestamp, hy]
    · simp [insertByTimestamp, hy, ih]

theorem sortByTimestamp_append_last (l : List (String × CachedResponse))
    (x : String × CachedResponse)
    (h : ∀ y ∈ l, y.2.timestamp ≤ x.2.timestamp) :
    sortByTimestamp (l ++ [x]) = sortByTimestamp l ++ [x] := by
  induction l with
  | nil => simp [sortByTimestamp, insertByTimestamp]
  | cons y ys ih =>
    have hys := ih (fun a ha => h a (List.mem_cons_of_mem _ ha))
    rw [List.cons_append, sortByTimestamp, sortByTimestamp, hys]
    exact insertByTimestamp_append_last y x _ (h y (List.mem_cons_self _ _))

theorem sortByTimestamp_of_chain (l : List (String × CachedResponse))
    (h : List.Chain' (fun a b => a.2.timestamp ≤ b.2.timestamp) l) :
    sortByTimestamp l = l := by
  induction l with
  | nil => rfl
  | cons x xs ih =>
    rw [sortByTimestamp, ih h.tail]
    cases xs with
    | nil => rfl
    | cons y ys =>
      have hxy : x.2.timestamp ≤ y.2.timestamp := (List.chain'_cons.mp h).1
      simp [insertByTimestamp, hxy]

theorem mem_of_mem_insertByTimestamp (a z : String × CachedResponse)
    (l : List (String × CachedResponse)) (h : a ∈ insertByTimestamp z l) :
    a = z ∨ a ∈ l := by
  induction l with
  | nil => simpa [insertByTimestamp] using h
  | cons y ys ih =>
    by_cases hy : z.2.timestamp ≤ y.2.timestamp
    · rcases (by simpa [insertByTimestamp, hy] using h : a = z ∨ a = y ∨ a ∈ ys) with
        h1 | h1 | h1
      · left; exact h1
      · right; simp [h1]
      · right; simp [h1]
    · simp only [insertByTimestamp, if_neg hy, List.mem_cons] at h
      rcases h with h | h
      · right; simp [h]
      · rcases ih h with h | h
        · left; exact h
        · right; simp [h]

theorem mem_of_mem_sortByTimestamp (a : String × CachedResponse)
    (l : List (String × CachedResponse)) (h : a ∈ sortByTimestamp l) :
    a ∈ l := by
  induction l with
  | nil => simp [sortByTimestamp] at h
  | cons y ys ih =>
    rw [sortByTimestamp] at h
    rcases mem_of_mem_insertByTimestamp a y _ h with h | h
    · simp [h]
    · simp [ih h]

theorem length_mapSet_of_mem {κ ε : Type} [DecidableEq κ]
    (l : List (κ × ε)) (k : κ) (v : ε) (h : k ∈ l.map Prod.fst) :
    (mapSet l k v).length = l.length := by
  induction l with
  | nil => simp at h
  | cons hd tl ih =>
    obtain ⟨k0, v0⟩ := hd
    by_cases hk : k0 = k
    · simp [mapSet, hk]
    · have hmem : k ∈ tl.map Prod.fst := by
        simp only [List.map_cons, List.mem_cons] at h
        rcases h with h1 | h1
        · exact absurd h1.symm hk
        · exact h1
      simp [mapSet, hk, ih hmem]

end StorageService

/-! ### Router lemmas -/

theorem calculateProviderScore_provider (st : AIRouter.RouterState)
    (p : AIProvider) (request : AIRequest) (taskType : TaskType) :
    (AIRouter.calculateProviderScore st p request taskType).provider = p := rfl

theorem mem_of_mem_insertScoreDesc (x s : RoutingScore) (l : List RoutingScore)
    (h : x ∈ AIRouter.insertScoreDesc s l) : x = s ∨ x ∈ l := by
  induction l with
  | nil => simpa [AIRouter.insertScoreDesc] using h
  | cons y ys ih =>
    by_cases hy : y.score ≤ s.score
    · rcases (by simpa [AIRouter.insertScoreDesc, hy] using h :
        x = s ∨ x = y ∨ x ∈ ys) with h1 | h1 | h1
      · left; exact h1
      · right; simp [h1]
      · right; simp [h1]
    · simp only [AIRouter.insertScoreDesc, if_neg hy, List.mem_cons] at h
      rcases h with h | h
      · right; simp [h]
      · rcases ih h with h | h
        · left; exact h
        · right; simp [h]

theorem mem_of_mem_sortScoresDesc (x : RoutingScore) (l : List RoutingScore)
    (h : x ∈ AIRouter.sortScoresDesc l) : x ∈ l := by
  induction l with
  | nil => simp [AIRouter.sortScoresDesc] at h
  | cons y ys ih =>
    rw [AIRouter.sortScoresDesc] at h
    rcases mem_of_mem_insertScoreDesc x y _ h with h | h
    · simp [h]
    · simp [ih h]

/-! ### Claim theorems -/

/-- Claim C1: a request whose `provider` field is explicitly set resolves
to exactly that provider — `sendToAI` uses it unconditionally, bypassing
the scoring router, regardless of message content, scores, or which
providers are enabled. -/
theorem route_manual_override (request : AIRequest)
    (settings : Background.ExtensionSettings) (st : AIRouter.RouterState)
    (p : AIProvider) (h : request.provider = some p) :
    Background.resolveProvider request settings st = Except.ok p := by
  unfold Background.resolveProvider
  rw [h]

/-- Witness for C1: `reqStory` pins Grok while its content matches the
Claude creative-writing rule; resolution still returns Grok. -/
theorem route_manual_override_witness :
    reqStory.provider = some AIProvider.grok ∧
    Background.resolveProvider reqStory settingsAll AIRouter.initialState =
      Except.ok AIProvider.grok :=
  ⟨rfl, route_manual_override reqStory settingsAll AIRouter.initialState .grok rfl⟩

/-- Claim C3: every routing score is the fixed weighted sum
`0.4·capability + 0.3·preference + 0.2·cost + 0.1·speed` of its own four
factors; the weights are compiled-in constants of
`calculateProviderScore`, not parameters of the call. -/
theorem provider_score_weighted_sum (st : AIRouter.RouterState)
    (p : AIProvider) (request : AIRequest) (taskType : TaskType) :
    (AIRouter.calculateProviderScore st p request taskType).score =
      (4/10 : ℚ) *
        (AIRouter.calculateProviderScore st p request taskType).factors.capabilityMatch +
      (3/10 : ℚ) *
        (AIRouter.calculateProviderScore st p request taskType).factors.userPreference +
      (2/10 : ℚ) *
        (AIRouter.calculateProviderScore st p request taskType).factors.costEfficiency +
      (1/10 : ℚ) *
        (AIRouter.calculateProviderScore st p request taskType).factors.responseSpeed := by
  simp only [AIRouter.calculateProviderScore]
  ring

/-- Claim C2: `route` only ever returns a provider that is enabled in the
settings (disabled providers are skipped before scoring), and with zero
enabled providers it fails — the score list is empty and reading
`sorted[0].provider` throws — instead of silently picking a provider. -/
theorem route_respects_enabled (st : AIRouter.RouterState)
    (enabled : AIProvider → Bool) (request : AIRequest) :
    (∀ p, AIRouter.route st enabled request = Except.ok p → enabled p = true) ∧
    ((∀ p, enabled p = false) →
      AIRouter.route st enabled request = Except.error AIRouter.emptyScoresError) := by
  constructor
  · intro p hp
    unfold AIRouter.route at hp
    rcases hsort : AIRouter.sortScoresDesc
        (AIRouter.calculateScores st enabled request) with _ | ⟨s, rest⟩
    · rw [hsort] at hp
      exact absurd hp (by simp)
    · rw [hsort] at hp
      have hsp : s.provider = p := by
        simpa using hp
      have hmem : s ∈ AIRouter.sortScoresDesc
          (AIRouter.calculateScores st enabled request) := by
        rw [hsort]; exact List.mem_cons_self _ _
      have hmem2 := mem_of_mem_sortScoresDesc _ _ hmem
      unfold AIRouter.calculateScores at hmem2
      rcases List.mem_map.mp hmem2 with ⟨q, hq, heq⟩
      have henq : enabled q = true := (List.mem_filter.mp hq).2
      have hqp : q = p := by
        rw [← hsp, ← heq]
        rfl
      rw [← hqp]
      exact henq
  · intro hall
    have hfilter : ([AIProvider.claude, .chatgpt, .gemini, .grok].filter enabled) = [] := by
      simp [hall]
    unfold AIRouter.route AIRouter.calculateScores
    rw [hfilter]
    rfl

/-- Witness for C2: with every provider disabled, routing the story
request produces the modelled TypeError instead of a provider. -/
theorem route_respects_enabled_witness :
    AIRouter.route AIRouter.initialState (fun _ => false) reqStory =
      Except.error AIRouter.emptyScoresError :=
  (route_respects_enabled AIRouter.initialState (fun _ => false) reqStory).2
    (fun _ => rfl)

/-! ### In-flight registry lemmas and claims C8, C10, C7 -/

theorem contains_filter_ne_self (l : List String) (k : String) :
    (l.filter (fun s => s != k)).contains k = false := by
  have hnm : k ∉ l.filter (fun s => s != k) := by
    intro hmem
    have hne := (List.mem_filter.mp hmem).2
    simp at hne
  cases hc : (l.filter (fun s => s != k)).contains k
  · rfl
  · exact absurd (List.elem_iff.mp hc) hnm

/-- Claim C8: once a dispatch settles — success, thrown error, abort, or
explicit cancellation — its request id is no longer in `activeRequests`;
the unknown-provider throw happens before registration and leaves the
registry untouched, so no path leaves a request permanently in flight. -/
theorem dispatch_always_deregisters (requestId : String) (responseTime : Nat)
    (outcome : APIManager.AdapterOutcome) (active : List String) :
    ((APIManager.sendRequest true requestId responseTime outcome active).2.contains
      requestId) = false ∧
    ((APIManager.cancelRequest requestId active).contains requestId) = false ∧
    APIManager.sendRequest false requestId responseTime outcome active =
      (Except.error "Unknown provider", active) := by
  refine ⟨?_, ?_, rfl⟩
  · unfold APIManager.sendRequest
    simp only [Bool.not_true, Bool.false_eq_true, if_false]
    exact contains_filter_ne_self _ _
  · unfold APIManager.cancelRequest
    by_cases h : active.contains requestId
    · rw [if_pos h]
      exact contains_filter_ne_self _ _
    · rw [if_neg h]
      exact Bool.not_eq_true _ |>.mp h

/-- Claim C10: `sendToAI` is total — whenever any step of its `try` body
throws (routing TypeError, missing API key, adapter exception), the
`catch` turns the thrown message into a returned `AIResponse` with empty
`content` and the message in `error`, leaving the storage state of the
throw point. -/
theorem sendToAI_total_on_throw (env : Background.DispatchEnv)
    (request : AIRequest) (st : Background.DispatchState) (now : Nat)
    (today : String) (msg : String) (st1 : Background.DispatchState)
    (h : Background.sendToAITry env request st now today = (Except.error msg, st1)) :
    Background.sendToAI env request st now today =
      (Background.catchResponse request msg, st1) ∧
    (Background.catchResponse request msg).content = "" ∧
    (Background.catchResponse request msg).error = some msg := by
  unfold Background.sendToAI
  rw [h]
  exact ⟨rfl, rfl, rfl⟩

/-- Witness for C10: with an empty credential store the missing-key throw
is caught and surfaced as an error response. -/
theorem sendToAI_total_on_throw_witness :
    (Background.sendToAI envNoKey reqStory st0 0 "2026-01-01").1.content = "" ∧
    (Background.sendToAI envNoKey reqStory st0 0 "2026-01-01").1.error =
      some "API key not found for grok" := by
  have h := sendToAI_total_on_throw envNoKey reqStory st0 0 "2026-01-01"
    "API key not found for grok" st0 rfl
  rw [h.1]
  exact ⟨h.2.1, h.2.2⟩

theorem http_fallback_ne_empty (status : Nat) :
    ("HTTP " ++ toString status ++ " error") ≠ "" := by
  intro h
  have h2 := congrArg String.length h
  rw [String.length_append, String.length_append] at h2
  have h5 : ("HTTP ").length = 5 := rfl
  have h6 : (" error").length = 6 := rfl
  have h0 : ("" : String).length = 0 := rfl
  omega

/-- Claim C7: for any transport failure carrying an HTTP status, the
Claude adapter returns normally with empty `content` and a non-empty
classified `error` message — invalid credentials for 401, rate limiting
for 429, temporary unavailability for 500/502/503 — and never lets the
failure escape as an exception (`sendRequest` is a total function into
`AIResponse`). -/
theorem claude_http_failure_contract (request : AIRequest) (status : Nat)
    (errMessage : Option String) :
    (ClaudeAPI.sendRequest request
      (Except.error (.httpError status errMessage))).content = "" ∧
    (∃ m, (ClaudeAPI.sendRequest request
        (Except.error (.httpError status errMessage))).error = some m ∧ m ≠ "") ∧
    (status = 401 → (ClaudeAPI.sendRequest request
      (Except.error (.httpError status errMessage))).error = some "Invalid API key") ∧
    (status = 429 → (ClaudeAPI.sendRequest request
      (Except.error (.httpError status errMessage))).error =
        some "Rate limit exceeded") ∧
    ((status = 500 ∨ status = 502 ∨ status = 503) →
      (ClaudeAPI.sendRequest request
        (Except.error (.httpError status errMessage))).error =
          some "Claude API is temporarily unavailable") := by
  unfold ClaudeAPI.sendRequest ClaudeAPI.handleError
  refine ⟨rfl, ?_, ?_, ?_, ?_⟩
  · simp only []
    split_ifs with h1 h2 h3
    · exact ⟨_, rfl, by decide⟩
    · exact ⟨_, rfl, by decide⟩
    · exact ⟨_, rfl, by decide⟩
    · unfold jsOrOptStr jsOrStr
      split_ifs with h4
      · exact ⟨_, rfl, http_fallback_ne_empty status⟩
      · exact ⟨_, rfl, h4⟩
  · intro h
    subst h
    simp
  · intro h
    subst h
    simp
  · intro h
    rcases h with h | h | h <;> subst h <;> simp

/-- Witness for C7: a 401 failure yields the invalid-credentials message
and empty content. -/
theorem claude_http_failure_contract_witness :
    (ClaudeAPI.sendRequest reqStory
      (Except.error (.httpError 401 none))).content = "" ∧
    (ClaudeAPI.sendRequest reqStory (Except.error (.httpError 401 none))).error =
      some "Invalid API key" := by
  have h := claude_http_failure_contract reqStory 401 none
  exact ⟨h.1, h.2.2.1 rfl⟩

/-! ### Cache round-trip (C4) -/

theorem length_insertByTimestamp (z : String × StorageService.CachedResponse)
    (l : List (String × StorageService.CachedResponse)) :
    (StorageService.insertByTimestamp z l).length = l.length + 1 := by
  induction l with
  | nil => rfl
  | cons y ys ih =>
    by_cases hy : z.2.timestamp ≤ y.2.timestamp
    · simp [StorageService.insertByTimestamp, hy]
    · simp [StorageService.insertByTimestamp, hy, ih]

theorem length_sortByTimestamp
    (l : List (String × StorageService.CachedResponse)) :
    (StorageService.sortByTimestamp l).length = l.length := by
  induction l with
  | nil => rfl
  | cons x xs ih =>
    rw [StorageService.sortByTimestamp, length_insertByTimestamp, ih]
    rfl

theorem mapGet_evict_one (l : List (String × StorageService.CachedResponse))
    (k : String) (v : StorageService.CachedResponse)
    (z : String × StorageService.CachedResponse)
    (hmem : k ∉ l.map Prod.fst) (hz : z ∈ l) :
    mapGet (mapDelete (l ++ [(k, v)]) z.1) k = some v := by
  have hzk : z.1 ≠ k := fun he => hmem (he ▸ List.mem_map_of_mem Prod.fst hz)
  rw [mapGet_mapDelete_ne _ _ _ hzk, mapGet_append_right _ _ _ hmem]
  simp [mapGet]

theorem setCachedResponse_ttl (c : StorageService.ResponseCache) (key : String)
    (response : AIResponse) (provider : AIProvider) (now : Nat) :
    (StorageService.setCachedResponse key response provider now (some c)).ttl =
      c.ttl := by
  unfold StorageService.setCachedResponse
  simp only [Option.getD_some]
  split_ifs <;> rfl

theorem getCachedResponse_hit (c2 : StorageService.ResponseCache) (key : String)
    (now2 : Nat) (e : StorageService.CachedResponse)
    (h : mapGet c2.entries key = some e)
    (hlive : ¬ (now2 - e.timestamp > c2.ttl)) :
    (StorageService.getCachedResponse key (some c2) now2).1 =
      some { e with hits := e.hits + 1 } := by
  simp [StorageService.getCachedResponse, h, hlive]

theorem mapGet_after_set (c : StorageService.ResponseCache) (key : String)
    (response : AIResponse) (provider : AIProvider) (now : Nat)
    (hts : ∀ e ∈ c.entries, e.2.timestamp ≤ now)
    (hlen : c.entries.length ≤ c.maxSize)
    (hM : 1 ≤ c.maxSize) :
    mapGet (StorageService.setCachedResponse key response provider now
        (some c)).entries key =
      some { key := key, response := response, timestamp := now, hits := 0,
             provider := provider } := by
  set e : StorageService.CachedResponse :=
    { key := key, response := response, timestamp := now, hits := 0,
      provider := provider } with he
  unfold StorageService.setCachedResponse
  rw [← he]
  simp only [Option.getD_some]
  by_cases hmem : key ∈ c.entries.map Prod.fst
  · have hlen1 := StorageService.length_mapSet_of_mem c.entries key e hmem
    rw [if_neg (by omega)]
    exact mapGet_mapSet_self _ _ _
  · have happ := mapSet_of_not_mem c.entries key e hmem
    by_cases hbig : (mapSet c.entries key e).length > c.maxSize
    · rw [if_pos hbig]
      rw [happ] at hbig ⊢
      have hlenapp : (c.entries ++ [(key, e)]).length = c.entries.length + 1 := by
        simp
      have hlen2 : c.entries.length = c.maxSize := by omega
      have hets : e.timestamp = now := rfl
      have hsorted := StorageService.sortByTimestamp_append_last c.entries
        (key, e) (fun y hy => by rw [hets]; exact hts y hy)
      rw [hsorted, hlenapp, hlen2]
      have htake1 : c.maxSize + 1 - c.maxSize = 1 := by omega
      rw [htake1]
      have hslen : (StorageService.sortByTimestamp c.entries).length =
          c.entries.length := length_sortByTimestamp c.entries
      rw [List.take_append_of_le_length (by omega)]
      rcases hsortl : StorageService.sortByTimestamp c.entries with _ | ⟨z, zs⟩
      · rw [hsortl] at hslen
        simp at hslen
        omega
      · have hz : z ∈ c.entries := by
          apply StorageService.mem_of_mem_sortByTimestamp
          rw [hsortl]
          exact List.mem_cons_self _ _
        simp only [List.take_succ_cons, List.take_zero, List.foldl_cons,
          List.foldl_nil]
        exact mapGet_evict_one c.entries key e z hmem hz
    · rw [if_neg hbig]
      exact mapGet_mapSet_self _ _ _

/-- Claim C4: storing a response under a key and immediately reading it
back (TTL not elapsed) returns an entry whose `response` is the stored
value and whose hit counter went from the stored 0 to exactly 1.  The
hypotheses are invariants of every reachable cache: existing timestamps
are not in the future, the entry count is within `maxSize`, and
`maxSize` is positive. -/
theorem cache_put_get_roundtrip (c : StorageService.ResponseCache)
    (key : String) (response : AIResponse) (provider : AIProvider)
    (now now2 : Nat)
    (hts : ∀ e ∈ c.entries, e.2.timestamp ≤ now)
    (hlen : c.entries.length ≤ c.maxSize)
    (hM : 1 ≤ c.maxSize)
    (httl : now2 - now ≤ c.ttl) :
    mapGet (StorageService.setCachedResponse key response provider now
        (some c)).entries key =
      some { key := key, response := response, timestamp := now, hits := 0,
             provider := provider } ∧
    (StorageService.getCachedResponse key
        (some (StorageService.setCachedResponse key response provider now
          (some c))) now2).1 =
      some { key := key, response := response, timestamp := now, hits := 1,
             provider := provider } := by
  have hget := mapGet_after_set c key response provider now hts hlen hM
  refine ⟨hget, ?_⟩
  have httl2 : ¬ (now2 -
      ({ key := key, response := response, timestamp := now, hits := 0,
         provider := provider : StorageService.CachedResponse }).timestamp >
      (StorageService.setCachedResponse key response provider now
        (some c)).ttl) := by
    rw [setCachedResponse_ttl]
    simp only
    omega
  exact getCachedResponse_hit _ _ _ _ hget httl2

/-- Witness for C4: a concrete put/get pair on the default empty cache. -/
theorem cache_put_get_roundtrip_witness :
    (StorageService.getCachedResponse "k"
        (some (StorageService.setCachedResponse "k" respPlain .claude 5
          (some StorageService.defaultCache))) 6).1 =
      some { key := "k", response := respPlain, timestamp := 5, hits := 1,
             provider := .claude } :=
  (cache_put_get_roundtrip StorageService.defaultCache "k" respPlain .claude 5 6
    (by intro e he; simp [StorageService.defaultCache] at he)
    (by decide) (by decide) (by decide)).2

/-! ### Cache eviction (C5) -/

theorem setCachedResponse_no_evict (c : StorageService.ResponseCache)
    (key : String) (response : AIResponse) (provider : AIProvider) (now : Nat)
    (h : (mapSet c.entries key ⟨key, response, now, 0, provider⟩).length ≤
      c.maxSize) :
    StorageService.setCachedResponse key response provider now (some c) =
      { c with entries := mapSet c.entries key ⟨key, response, now, 0, provider⟩ } := by
  unfold StorageService.setCachedResponse
  simp only [Option.getD_some]
  rw [if_neg (by omega)]

theorem runInserts_no_evict (inserts : List CacheInsert) :
    ∀ (c : StorageService.ResponseCache),
    (c.entries.map Prod.fst ++ inserts.map CacheInsert.key).Nodup →
    c.entries.length + inserts.length ≤ c.maxSize →
    runInserts inserts (some c) =
      some { c with entries := c.entries ++ inserts.map insertEntry } := by
  induction inserts with
  | nil =>
    intro c _ _
    simp [runInserts]
  | cons i is ih =>
    intro c hnd hlen
    have hparts := List.nodup_append.mp hnd
    have hfresh : i.key ∉ c.entries.map Prod.fst := by
      intro hx
      exact hparts.2.2 hx (List.mem_cons_self _ _)
    have hset := mapSet_of_not_mem c.entries i.key
      ⟨i.key, i.response, i.now, 0, i.provider⟩ hfresh
    have hlen1 : (mapSet c.entries i.key
        ⟨i.key, i.response, i.now, 0, i.provider⟩).length ≤ c.maxSize := by
      rw [hset]
      simp only [List.length_append, List.length_cons, List.length_nil]
      simp only [List.length_cons, List.map_cons] at hlen
      omega
    have hstep := setCachedResponse_no_evict c i.key i.response i.provider
      i.now hlen1
    have hrun : runInserts (i :: is) (some c) =
        runInserts is (some (StorageService.setCachedResponse i.key i.response
          i.provider i.now (some c))) := rfl
    rw [hrun, hstep, hset]
    have hnd2 : ((c.entries ++ [insertEntry i]).map Prod.fst ++
        is.map CacheInsert.key).Nodup := by
      have hkeq : (c.entries ++ [insertEntry i]).map Prod.fst =
          c.entries.map Prod.fst ++ [i.key] := by
        simp [insertEntry]
      rw [hkeq, List.append_assoc]
      simpa using hnd
    have hlen2 : (c.entries ++ [insertEntry i]).length + is.length ≤
        c.maxSize := by
      simp only [List.length_append, List.length_cons, List.length_nil]
      simp only [List.length_cons] at hlen
      omega
    have hih := ih { c with entries := c.entries ++ [insertEntry i] } hnd2 hlen2
    have hee : insertEntry i =
        (i.key, (⟨i.key, i.response, i.now, 0, i.provider⟩ :
          StorageService.CachedResponse)) := rfl
    rw [← hee, hih]
    simp

theorem runInserts_append (l₁ l₂ : List CacheInsert)
    (c : Option StorageService.ResponseCache) :
    runInserts (l₁ ++ l₂) c = runInserts l₂ (runInserts l₁ c) := by
  simp [runInserts, List.foldl_append]

theorem map_fst_map_insertEntry (l : List CacheInsert) :
    (l.map insertEntry).map Prod.fst = l.map CacheInsert.key := by
  simp [insertEntry]

/-- Claim C5: starting from an empty cache with capacity `maxSize ≥ 1`,
inserting `maxSize + 1` entries with distinct keys and non-decreasing
insertion clocks leaves exactly the `maxSize` most recent entries: the
earliest-inserted entry — and only it — has been evicted (strict
insertion-time order, not recency of use). -/
theorem cache_eviction_oldest_first (M T : Nat) (inserts : List CacheInsert)
    (hM : 1 ≤ M)
    (hlen : inserts.length = M + 1)
    (hkeys : (inserts.map CacheInsert.key).Nodup)
    (hts : List.Chain' (· ≤ ·) (inserts.map CacheInsert.now)) :
    runInserts inserts (some ⟨[], M, T⟩) =
      some ⟨(inserts.drop 1).map insertEntry, M, T⟩ ∧
    ((inserts.drop 1).map insertEntry).length = M := by
  constructor
  · induction inserts using List.reverseRecOn with
    | nil => simp at hlen
    | append_singleton init lst _ =>
      rw [List.length_append, List.length_cons, List.length_nil] at hlen
      have hinitlen : init.length = M := by omega
      rw [List.map_append, List.nodup_append] at hkeys
      have hinitnd : (init.map CacheInsert.key).Nodup := hkeys.1
      have hlstfresh : lst.key ∉ init.map CacheInsert.key := by
        intro hx
        exact hkeys.2.2 hx (List.mem_cons_self _ _)
      rw [List.map_append] at hts
      have hpair := (List.chain'_iff_pairwise).mp hts
      rw [List.pairwise_append] at hpair
      have hbound : ∀ i ∈ init, i.now ≤ lst.now := by
        intro i hi
        exact hpair.2.2 i.now (List.mem_map_of_mem _ hi) lst.now
          (List.mem_cons_self _ _)
      have hinitchain : List.Chain' (· ≤ ·) (init.map CacheInsert.now) :=
        (List.chain'_iff_pairwise).mpr hpair.1
      rw [runInserts_append]
      have hmid := runInserts_no_evict init ⟨[], M, T⟩
        (by simpa using hinitnd) (by simpa using hinitlen.le)
      rw [hmid]
      simp only [List.nil_append]
      -- the final insert evicts exactly the first entry
      have hrunlast : runInserts [lst] (some ⟨init.map insertEntry, M, T⟩) =
          some (StorageService.setCachedResponse lst.key lst.response
            lst.provider lst.now (some ⟨init.map insertEntry, M, T⟩)) := rfl
      rw [hrunlast]
      unfold StorageService.setCachedResponse
      simp only [Option.getD_some]
      have hfresh2 : lst.key ∉ (init.map insertEntry).map Prod.fst := by
        rw [map_fst_map_insertEntry]
        exact hlstfresh
      have hset := mapSet_of_not_mem (init.map insertEntry) lst.key
        ⟨lst.key, lst.response, lst.now, 0, lst.provider⟩ hfresh2
      rw [hset]
      have hlenapp : ((init.map insertEntry) ++
          [(lst.key, (⟨lst.key, lst.response, lst.now, 0, lst.provider⟩ :
            StorageService.CachedResponse))]).length = M + 1 := by
        simp [hinitlen]
      rw [if_pos (by rw [hlenapp]; omega)]
      have htsbound : ∀ y ∈ init.map insertEntry, y.2.timestamp ≤
          (⟨lst.key, lst.response, lst.now, 0, lst.provider⟩ :
            StorageService.CachedResponse).timestamp := by
        intro y hy
        rcases List.mem_map.mp hy with ⟨i, hi, hie⟩
        rw [← hie]
        exact hbound i hi
      rw [StorageService.sortByTimestamp_append_last _ _ htsbound]
      have hchainE : List.Chain'
          (fun a b => a.2.timestamp ≤ b.2.timestamp)
          (init.map insertEntry) := by
        rw [List.chain'_map]
        exact (List.chain'_map CacheInsert.now).mp hinitchain
      rw [StorageService.sortByTimestamp_of_chain _ hchainE, hlenapp]
      have htake1 : M + 1 - M = 1 := by omega
      rw [htake1, List.take_append_of_le_length (by simp [hinitlen]; omega)]
      rcases hinit : init with _ | ⟨f, mid⟩
      · rw [hinit] at hinitlen
        simp at hinitlen
        omega
      · simp only [List.map_cons, List.take_succ_cons, List.take_zero,
          List.foldl_cons, List.foldl_nil]
        have hdel1 : mapDelete ((insertEntry f :: mid.map insertEntry) ++
            [(lst.key, (⟨lst.key, lst.response, lst.now, 0, lst.provider⟩ :
              StorageService.CachedResponse))]) (insertEntry f).1 =
            mapDelete (mid.map insertEntry ++
              [(lst.key, (⟨lst.key, lst.response, lst.now, 0, lst.provider⟩ :
                StorageService.CachedResponse))]) (insertEntry f).1 := by
          rw [List.cons_append, mapDelete]
          simp
        rw [hdel1]
        rw [hinit] at hinitnd hlstfresh
        simp only [List.map_cons] at hinitnd
        have hfk1 : f.key ∉ mid.map CacheInsert.key :=
          (List.nodup_cons.mp hinitnd).1
        have hfk2 : f.key ≠ lst.key := by
          intro hx
          exact hlstfresh (by rw [← hx]; exact List.mem_cons_self _ _)
        have hnot : (insertEntry f).1 ∉ ((mid.map insertEntry) ++
            [(lst.key, (⟨lst.key, lst.response, lst.now, 0, lst.provider⟩ :
              StorageService.CachedResponse))]).map Prod.fst := by
          rw [List.map_append, map_fst_map_insertEntry]
          intro hx
          rcases List.mem_append.mp hx with hx | hx
          · exact hfk1 hx
          · simp at hx
            exact hfk2 hx
        rw [mapDelete_of_not_mem _ _ hnot]
        simp [insertEntry]
  · rw [List.length_map, List.length_drop, hlen]
    omega

/-- Witness for C5: three distinct inserts into a 2-entry cache keep
exactly the last two entries; the first-inserted key is the one evicted. -/
theorem cache_eviction_oldest_first_witness :
    runInserts [⟨"a", respPlain, .claude, 1⟩, ⟨"b", respPlain, .claude, 2⟩,
        ⟨"c", respPlain, .claude, 3⟩] (some ⟨[], 2, 5⟩) =
      some ⟨[insertEntry ⟨"b", respPlain, .claude, 2⟩,
             insertEntry ⟨"c", respPlain, .claude, 3⟩], 2, 5⟩ :=
  (cache_eviction_oldest_first 2 5
    [⟨"a", respPlain, .claude, 1⟩, ⟨"b", respPlain, .claude, 2⟩,
     ⟨"c", respPlain, .claude, 3⟩]
    (by omega) rfl (by decide) (by simp)).1

/-! ### Base64 and cache-key lemmas (C6) -/

theorem sextetVal_sextetChar : ∀ n, n < 64 → sextetVal (sextetChar n) = n := by
  decide

theorem sextetChar_ne_pad : ∀ n, n < 64 → sextetChar n ≠ '=' := by
  decide

theorem b64decode_b64encode : ∀ (l : List Nat), (∀ b ∈ l, b < 256) →
    b64decode (b64encode l) = l
  | [], _ => rfl
  | [a], h => by
      have ha : a < 256 := h a (by simp)
      simp only [b64encode, b64decode, if_true]
      rw [sextetVal_sextetChar _ (by omega), sextetVal_sextetChar _ (by omega)]
      have h1 : a / 4 * 4 + a % 4 * 16 / 16 = a := by omega
      rw [h1]
  | [a, b], h => by
      have ha : a < 256 := h a (by simp)
      have hb : b < 256 := h b (by simp)
      simp only [b64encode, b64decode]
      rw [if_neg (sextetChar_ne_pad _ (by omega))]
      simp only [if_true]
      rw [sextetVal_sextetChar _ (by omega), sextetVal_sextetChar _ (by omega),
        sextetVal_sextetChar _ (by omega)]
      have h1 : a / 4 * 4 + (a % 4 * 16 + b / 16) / 16 = a := by omega
      have h2 : (a % 4 * 16 + b / 16) % 16 * 16 + b % 16 * 4 / 4 = b := by omega
      rw [h1, h2]
  | a :: b :: c :: rest, h => by
      have ha : a < 256 := h a (by simp)
      have hb : b < 256 := h b (by simp)
      have hc : c < 256 := h c (by simp)
      have hrest : ∀ y ∈ rest, y < 256 := fun y hy => h y (by simp [hy])
      simp only [b64encode, b64decode]
      rw [if_neg (sextetChar_ne_pad _ (by omega)),
        if_neg (sextetChar_ne_pad _ (by omega))]
      rw [sextetVal_sextetChar _ (by omega), sextetVal_sextetChar _ (by omega),
        sextetVal_sextetChar _ (by omega), sextetVal_sextetChar _ (by omega)]
      have h1 : a / 4 * 4 + (a % 4 * 16 + b / 16) / 16 = a := by omega
      have h2 : (a % 4 * 16 + b / 16) % 16 * 16 + (b % 16 * 4 + c / 64) / 4 = b := by
        omega
      have h3 : (b % 16 * 4 + c / 64) % 4 * 64 + c % 64 = c := by omega
      rw [h1, h2, h3, b64decode_b64encode rest hrest]

theorem char_toNat_injective : Function.Injective Char.toNat := by
  intro a b h
  unfold Char.toNat at h
  exact Char.ext (UInt32.ext h)

theorem btoa_injective_latin1 (s t : String)
    (hs : ∀ c ∈ s.toList, c.toNat < 256) (ht : ∀ c ∈ t.toList, c.toNat < 256)
    (h : btoa s = btoa t) : s = t := by
  unfold btoa at h
  have h1 : b64encode (s.toList.map Char.toNat) =
      b64encode (t.toList.map Char.toNat) := congrArg String.data h
  have hs' : ∀ x ∈ s.toList.map Char.toNat, x < 256 := by
    intro x hx
    rcases List.mem_map.mp hx with ⟨c, hc, hce⟩
    rw [← hce]
    exact hs c hc
  have ht' : ∀ x ∈ t.toList.map Char.toNat, x < 256 := by
    intro x hx
    rcases List.mem_map.mp hx with ⟨c, hc, hce⟩
    rw [← hce]
    exact ht c hc
  have h2 : s.toList.map Char.toNat = t.toList.map Char.toNat := by
    rw [← b64decode_b64encode _ hs', ← b64decode_b64encode _ ht', h1]
  exact String.ext (List.map_injective_iff.mpr char_toNat_injective h2)

theorem providerOfJson_cacheKeyJson (r : AIRequest) (p : AIProvider)
    (h : r.provider = some p) :
    providerOfJson (cacheKeyJson r) = (providerId p).toList := by
  cases p <;> · unfold providerOfJson cacheKeyJson
                rw [h]
                rfl

theorem providerId_toList_inj (p q : AIProvider)
    (h : (providerId p).toList = (providerId q).toList) : p = q := by
  cases p <;> cases q <;> first
    | rfl
    | exact absurd h (by decide)

/-- Counterexample to C6: the fingerprint is computed from
`request.provider` as supplied, not from the provider the dispatch
resolved.  The same provider-free request resolves to Claude under one
configuration and to Gemini under another, yet both dispatches use the
same cache key: the second dispatch (resolved to Gemini) is answered by
the entry the first dispatch cached from Claude — two dispatches that
resolve to different providers share a cache entry. -/
theorem dispatches_share_cache_entry :
    Background.resolveProvider reqAuto (onlyEnabled .claude)
      AIRouter.initialState = .ok .claude ∧
    Background.resolveProvider reqAuto (onlyEnabled .gemini)
      AIRouter.initialState = .ok .gemini ∧
    (Background.sendToAI envGemini reqAuto
      (Background.sendToAI envClaude reqAuto st0 1000 "2026-10-11").2
      1500 "2026-10-11").1 = respFromClaude ∧
    respFromClaude.provider = .claude :=
  ⟨rfl, rfl, rfl, rfl⟩

/-- Claim C6 (amended): the cache fingerprint used for both lookup and
store is a deterministic function of the request's own `provider` field
(absent when the caller relies on routing) together with `model`,
`messages`, `temperature` and `maxTokens`; consequently two dispatches
whose requests pin different providers explicitly never share a cache
entry, while auto-routed dispatches use a provider-less fingerprint and
can share one even when they resolve to different providers.  The
Latin-1 bounds are the precondition under which the browser's `btoa`
accepts the JSON payload at all. -/
theorem cacheKey_request_fields :
    (∀ r1 r2 : AIRequest, r1.provider = r2.provider → r1.model = r2.model →
      r1.messages = r2.messages → r1.temperature = r2.temperature →
      r1.maxTokens = r2.maxTokens →
      Background.generateCacheKey r1 = Background.generateCacheKey r2) ∧
    (∀ (r1 r2 : AIRequest) (p1 p2 : AIProvider), r1.provider = some p1 →
      r2.provider = some p2 → p1 ≠ p2 →
      (∀ c ∈ (cacheKeyJson r1).toList, c.toNat < 256) →
      (∀ c ∈ (cacheKeyJson r2).toList, c.toNat < 256) →
      Background.generateCacheKey r1 ≠ Background.generateCacheKey r2) := by
  constructor
  · intro r1 r2 h1 h2 h3 h4 h5
    unfold Background.generateCacheKey cacheKeyJson
    rw [h1, h2, h3, h4, h5]
  · intro r1 r2 p1 p2 hp1 hp2 hne hl1 hl2 hkey
    apply hne
    have hjson : cacheKeyJson r1 = cacheKeyJson r2 :=
      btoa_injective_latin1 _ _ hl1 hl2 hkey
    have e1 := providerOfJson_cacheKeyJson r1 p1 hp1
    have e2 := providerOfJson_cacheKeyJson r2 p2 hp2
    rw [hjson] at e1
    exact providerId_toList_inj p1 p2 (e1.symm.trans e2)

/-- Witness for the amended C6: two explicit-provider requests that agree
on everything else still get distinct fingerprints. -/
theorem cacheKey_request_fields_witness :
    Background.generateCacheKey
        { provider := some .claude, model := "m", messages := [] } ≠
      Background.generateCacheKey
        { provider := some .gemini, model := "m", messages := [] } :=
  cacheKey_request_fields.2
    { provider := some .claude, model := "m", messages := [] }
    { provider := some .gemini, model := "m", messages := [] }
    .claude .gemini rfl rfl (by decide) (by decide) (by decide)

/-! ### Usage retention (C9) -/

theorem today_mem_updateDailyUsage (provider : AIProvider)
    (response : AIResponse) (today : String) :
    ∀ (l : List Background.DailyUsage),
    today ∈ (Background.updateDailyUsage provider response today l).map
      Background.DailyUsage.date
  | [] => by simp [Background.updateDailyUsage]
  | d :: ds => by
      by_cases h : d.date = today
      · simp [Background.updateDailyUsage, h]
      · simp only [Background.updateDailyUsage, if_neg h, List.map_cons,
          List.mem_cons]
        exact Or.inr (today_mem_updateDailyUsage provider response today ds)

/-- Counterexample to C9: `trackUsage` truncates `dailyUsage` to its last
30 entries (`slice(-30)`) rather than pruning by date, so a bucket from
2020-01-01 — 2475 days, far more than 30 days, before the write's date —
is still stored after a write on 2026-10-11. -/
theorem trackUsage_stale_bucket_survives :
    "2020-01-01" ∈ ((Background.trackUsage .claude respPlain "2026-10-11" 0
      (some usageOld)).dailyUsage.map Background.DailyUsage.date) ∧
    daysFromCivil 2026 10 11 - daysFromCivil 2020 1 1 > 30 :=
  ⟨by decide, by decide⟩

/-- Claim C9 (amended): each write buckets under the write's calendar-date
string (the source derives it from `toISOString`, hence UTC, not the
local time zone) — the current date always has a bucket in the updated
list — and retention keeps only the last 30 stored buckets, whatever
their dates; at most 30 buckets remain, but a bucket older than 30 days
survives whenever fewer than 30 buckets follow it. -/
theorem trackUsage_retention_last30 (provider : AIProvider)
    (response : AIResponse) (today : String) (nowMs : Nat)
    (stored : Option Background.UsageStats) :
    (Background.trackUsage provider response today nowMs stored).dailyUsage =
      (Background.updateDailyUsage provider response today
        ((stored.getD Background.emptyUsage).dailyUsage)).drop
        ((Background.updateDailyUsage provider response today
          ((stored.getD Background.emptyUsage).dailyUsage)).length - 30) ∧
    (Background.trackUsage provider response today nowMs
      stored).dailyUsage.length ≤ 30 ∧
    today ∈ (Background.updateDailyUsage provider response today
      ((stored.getD Background.emptyUsage).dailyUsage)).map
      Background.DailyUsage.date := by
  refine ⟨rfl, ?_, today_mem_updateDailyUsage provider response today _⟩
  show ((Background.updateDailyUsage provider response today
      ((stored.getD Background.emptyUsage).dailyUsage)).drop
      ((Background.updateDailyUsage provider response today
        ((stored.getD Background.emptyUsage).dailyUsage)).length - 30)).length ≤ 30
  rw [List.length_drop]
  omega
